import Mathlib

/-!
Verification development for the Line_bot_Identity token-ledger system.

The Python source is shallowly embedded: each relevant function of
`app/services/token_service.py`, `app/services/email_service.py`,
`app/bot_handler.py` and `app/services/razer_service.py` becomes an
executable Lean definition over an explicit relational state `DB`.
Float amounts are modelled as rationals; Python string-to-float parsing
is abstracted as an explicit `parseFloat : String → ℚ` parameter.
-/

namespace LineBot

/-- Row of the `groups` table (app/models.py, class Group). -/
structure Group where
  id : Nat
  lineGroupId : String
  groupName : String
  tokenBalance : ℚ
  isActive : Bool
deriving Repr, DecidableEq

/-- Row of the `users` table (app/models.py, class User). -/
structure User where
  id : Nat
  lineUserId : String
  displayName : String
deriving Repr, DecidableEq

/-- Row of the `token_logs` table (app/models.py, class TokenLog). -/
structure TokenLog where
  groupId : Nat
  userId : Option Nat
  transactionType : String
  amount : ℚ
  balanceBefore : ℚ
  balanceAfter : ℚ
  referenceId : Option String
  description : String
  operator : String
deriving Repr, DecidableEq

/-- Row of the `email_logs` table (app/models.py, class EmailLog).
`transfer_id` carries a unique constraint in the schema.
`group_id` is declared `nullable=False`: the table cannot hold a record
with no group. -/
structure EmailLog where
  groupId : Nat
  emailSubject : String
  sender : String
  transferAmount : ℚ
  transferId : String
  processingStatus : String
  tokensAdded : ℚ
  errorMessage : Option String
deriving Repr, DecidableEq

/-- Row of the `razer_logs` table (app/models.py, class RazerLog);
fields not read by any embedded code path (screenshots, zip path,
timestamps) are omitted. -/
structure RazerLog where
  id : Nat
  groupId : Nat
  userId : Nat
  razerAccount : String
  amount : ℚ
  tokensUsed : ℚ
  status : String
  errorMessage : Option String
  retryCount : Nat
deriving Repr, DecidableEq

/-- Row of the `system_config` table (app/models.py, class SystemConfig).
An SQL NULL value and the empty string are both falsy to the Python code
that reads this table, so both are modelled as `""`. -/
structure SystemConfigRow where
  configKey : String
  configValue : String
deriving Repr, DecidableEq

/-- The persistent relational state. -/
structure DB where
  groups : List Group
  users : List User
  tokenLogs : List TokenLog
  emailLogs : List EmailLog
  razerLogs : List RazerLog
  systemConfigs : List SystemConfigRow
deriving Repr, DecidableEq

/-- `db.query(Group).filter(Group.line_group_id == x).first()`. -/
def findGroup (db : DB) (lineGroupId : String) : Option Group :=
  db.groups.find? (fun g => g.lineGroupId == lineGroupId)

/-- `db.query(User).filter(User.line_user_id == x).first()`. -/
def findUser (db : DB) (lineUserId : String) : Option User :=
  db.users.find? (fun u => u.lineUserId == lineUserId)

/-- `db.query(SystemConfig).filter(SystemConfig.config_key == k).first()`. -/
def findConfig (db : DB) (key : String) : Option SystemConfigRow :=
  db.systemConfigs.find? (fun c => c.configKey == key)

/-- The token-log rows belonging to one group, in insertion order. -/
def logsForGroup (db : DB) (groupId : Nat) : List TokenLog :=
  db.tokenLogs.filter (fun l => l.groupId == groupId)

/-- Overwrite the balance of the group carrying the given line-group id. -/
def setGroupBalance (db : DB) (lineGroupId : String) (newBalance : ℚ) : DB :=
  { db with groups := db.groups.map (fun g =>
      if g.lineGroupId == lineGroupId then { g with tokenBalance := newBalance } else g) }

/-! ## String helpers

Python's `str.upper` / `str.lower` / `str.startswith` and slicing,
modelled character-wise so that concrete runs evaluate inside the kernel.
All strings the system compares are ASCII identifiers. -/

/-- Python `s.upper()`. -/
def strUpper (s : String) : String := ⟨s.data.map Char.toUpper⟩

/-- Python `s.lower()` (SQL `ILIKE` case folding). -/
def strLower (s : String) : String := ⟨s.data.map Char.toLower⟩

/-- Python `s.startswith(pat)`. -/
def strStartsWith (s pat : String) : Bool := pat.data.isPrefixOf s.data

/-- Python `s[n:]`. -/
def strDrop (s : String) (n : Nat) : String := ⟨s.data.drop n⟩

/-! ## TokenService (app/services/token_service.py) -/

/-- `TransactionType[name]` lookup (app/models.py): enum name to stored
string value; `none` models the `KeyError` branch. -/
def transactionTypeValueOfName : String → Option String
  | "DEPOSIT" => some "deposit"
  | "WITHDRAW" => some "withdraw"
  | "MANUAL_ADD" => some "manual_add"
  | "MANUAL_SUB" => some "manual_sub"
  | _ => none

/-- token_service.py lines 49-54: `TransactionType[transaction_type.upper()]`,
falling back to the original string on `KeyError`.  `TransactionType` is a
str-mixin enum, so a member passed in behaves as its value string. -/
def convertTransactionType (transactionType : String) : String :=
  (transactionTypeValueOfName (strUpper transactionType)).getD transactionType

/-- The guard that made `_perform_update_balance` return `False`. -/
inductive PerformFailure where
  | groupNotFound
  | duplicateReference
  | insufficientBalance
deriving Repr, DecidableEq

/-- Outcome of `_perform_update_balance` (token_service.py lines 18-69).

`nameErrorUnboundEnum`: control passed every guard, the in-session balance
was updated (lines 45-47) and the transaction type converted (lines 49-54),
but constructing the `TokenLog` at line 56 evaluates
`isinstance(actual_transaction_type, Enum)` (line 59) and `Enum` is not
imported anywhere in token_service.py, so the call raises `NameError`
before `db.add` runs.  The constructor carries the in-session values that
were computed before the raise. -/
inductive PerformResult where
  | returnedFalse (reason : PerformFailure)
  | nameErrorUnboundEnum (balanceBefore balanceAfter : ℚ) (actualTypeValue : String)
deriving Repr, DecidableEq

/-- token_service.py line 36: global duplicate-reference query over all
token logs.  Line 35 `if reference_id:` is Python truthiness: `None` and
the empty string both skip the check. -/
def referenceIdCollides (db : DB) (referenceId : Option String) : Bool :=
  match referenceId with
  | none => false
  | some r => r != "" && (db.tokenLogs.find? (fun l => l.referenceId == some r)).isSome

/-- `TokenService._perform_update_balance` (token_service.py lines 18-69),
operating inside whatever session the caller supplies. -/
def performUpdateBalance (db : DB) (lineGroupId : String) (amount : ℚ)
    (transactionType : String) (referenceId : Option String) : PerformResult :=
  match findGroup db lineGroupId with
  | none => .returnedFalse .groupNotFound
  | some group =>
    if referenceIdCollides db referenceId then
      .returnedFalse .duplicateReference
    else if amount < 0 ∧ group.tokenBalance + amount < 0 then
      .returnedFalse .insufficientBalance
    else
      .nameErrorUnboundEnum group.tokenBalance (group.tokenBalance + amount)
        (convertTransactionType transactionType)

/-- The `TokenLog` row lines 56-66 were about to insert, had the
construction not raised.  Used to state what the code would have to do to
meet the specification; never inserted by the faithful semantics. -/
def intendedTokenLog (db : DB) (lineGroupId : String) (amount : ℚ)
    (transactionType : String) (referenceId : Option String)
    (userIdForLog : Option Nat) : Option TokenLog :=
  (findGroup db lineGroupId).map (fun group =>
    { groupId := group.id
      userId := userIdForLog
      transactionType := convertTransactionType transactionType
      amount := amount
      balanceBefore := group.tokenBalance
      balanceAfter := group.tokenBalance + amount
      referenceId := referenceId
      description := ""
      operator := "" })

/-- `TokenService.update_group_balance` with `db_session=None`
(token_service.py lines 100-117): a fresh session is opened; `False` from
`_perform_update_balance` rolls back (line 112), and the `NameError`
raised on the would-be success path is caught by `except Exception`
(line 115) after `get_db_session` has rolled the session back, so the
call returns `False` and the store is unchanged in every case. -/
def updateGroupBalance (db : DB) (lineGroupId : String) (amount : ℚ)
    (transactionType : String) (referenceId : Option String) : Bool × DB :=
  match performUpdateBalance db lineGroupId amount transactionType referenceId with
  | .returnedFalse _ => (false, db)
  | .nameErrorUnboundEnum _ _ _ => (false, db)

/-- `TokenService.add_tokens_from_deposit` (token_service.py lines 119-146):
reference id `"deposit_transfer_" ++ transferId`, transaction type
`TransactionType.DEPOSIT` (value `"deposit"`).  Only the session-sharing
call from the email pipeline is exercised; see `processParsedTransfer`. -/
def depositReferenceId (transferId : String) : String :=
  "deposit_transfer_" ++ transferId

/-- `TokenService.deduct_tokens_for_recharge` (token_service.py lines
148-172): amount negated, type `WITHDRAW`, reference id derived from the
group id and the wall-clock second of the call (not from any redemption
attempt identity). -/
def deductTokensForRecharge (db : DB) (lineGroupId : String) (amount : ℚ)
    (_razerAccount : String) (timestampSec : Nat) : Bool × DB :=
  updateGroupBalance db lineGroupId (-amount) "withdraw"
    (some ("recharge_" ++ lineGroupId ++ "_" ++ toString timestampSec))

/-- `TokenService.manual_adjust_tokens` (token_service.py lines 174-200). -/
def manualAdjustTokens (db : DB) (lineGroupId : String) (amount : ℚ)
    (timestampSec : Nat) : Bool × DB :=
  updateGroupBalance db lineGroupId amount
    (if amount > 0 then "manual_add" else "manual_sub")
    (some ("manual_" ++ lineGroupId ++ "_" ++ toString timestampSec))

/-! ## EmailService (app/services/email_service.py)

The IMAP fetch and the regex extraction over raw mail bodies are the
pipeline's input boundary; the embedding takes the extraction results
(`amountFound`, `bankTxIdFound`, `groupIdentifierFound`, ...) as
parameters and models everything from there on faithfully. -/

/-- Result of `_parse_transfer_email` when it returns a dict. -/
structure ParsedTransfer where
  emailSubject : String
  sender : String
  transferAmount : ℚ
  transferId : String
  targetLineGroupId : String
  payerInfo : String
deriving Repr, DecidableEq

/-- email_service.py lines 254-255: the `token_exchange_rate` system
config; `1.0` when the row is missing or its value is NULL/empty.
These lines are DEAD CODE in every execution: control aborts earlier, at
the `EmailLog` construction of lines 245-250 (see
`processParsedTransfer`).  The definition transcribes them to state what
the pipeline was written to compute. -/
def tokenExchangeRate (parseFloat : String → ℚ) (db : DB) : ℚ :=
  match findConfig db "token_exchange_rate" with
  | some c => if c.configValue != "" then parseFloat c.configValue else 1
  | none => 1

/-- email_service.py line 256 — dead code, like `tokenExchangeRate`. -/
def tokensToAdd (parseFloat : String → ℚ) (db : DB) (transferAmount : ℚ) : ℚ :=
  transferAmount * tokenExchangeRate parseFloat db

/-- `_process_parsed_transfer` (email_service.py lines 230-296); returns
`(resulting DB, success, was_duplicate)`.

Paths, in source order:
* an `EmailLog` already carries this transfer id → `(True, True)`, nothing
  written (lines 234-238);
* target group vanished → `(False, False)`, nothing written (lines 240-243);
* otherwise the `EmailLog` construction at lines 245-250 passes
  `raw_body=transfer_info["raw_email_body"]`, but `models.py` declares no
  `raw_body` column on `EmailLog`, so SQLAlchemy's declarative
  constructor raises `TypeError` before `db.add` runs.  The exception
  propagates out of the `with get_db_session()` block (which rolls back)
  to the handler at line 282; the recovery block (lines 287-295) finds no
  `EmailLog` row for the transfer id — nothing was inserted — and the
  call returns `(False, False)` with nothing persisted.  The
  exchange-rate computation (lines 254-256), the
  `add_tokens_from_deposit` call (line 260), and both the `"success"`
  and `"failed"` status writes (lines 268-281) are unreachable.

The parse-function parameter models the float parse those unreachable
lines would use; it is kept in the signature because the function's text
contains that code. -/
def processParsedTransfer (_parseFloat : String → ℚ) (db : DB) (p : ParsedTransfer) :
    DB × Bool × Bool :=
  if (db.emailLogs.find? (fun l => l.transferId == p.transferId)).isSome then
    (db, true, true)
  else
    match findGroup db p.targetLineGroupId with
    | none => (db, false, false)
    | some _ => (db, false, false)

/-- `c` is a `[0-9a-fA-F]` character. -/
def hexDigit (c : Char) : Bool :=
  c.isDigit || ('a' ≤ c && c ≤ 'f') || ('A' ≤ c && c ≤ 'F')

/-- The regex `^[GCU][0-9a-fA-F]{6,}$` of email_service.py line 216
(compiled without `re.IGNORECASE`). -/
def isLineIdToken (s : String) : Bool :=
  match s.toList with
  | [] => false
  | c :: rest =>
    (c == 'G' || c == 'C' || c == 'U') && decide (rest.length ≥ 6) && rest.all hexDigit

/-- SQL `ILIKE '%needle%'`: case-insensitive containment.  LIKE wildcard
characters inside the needle are not modelled; no theorem below relies on
a needle containing `%` or `_`. -/
def containsCI (haystack needle : String) : Bool :=
  decide ((strLower needle).data <:+: (strLower haystack).data)

/-- Active groups in table order; `.first()` picks the head. -/
def activeGroups (db : DB) : List Group :=
  db.groups.filter (·.isActive)

/-- `_find_group_by_identifier` (email_service.py lines 207-228): three
branches — `GROUP_` prefix (substring match on the line-group id), a
literal Line id (exact match), or a fuzzy match on group name or id.
Whatever the branch, `.first()` returns the first active match. -/
def findGroupByIdentifier (db : DB) (identifier : String) : Option String :=
  if strStartsWith (strUpper identifier) "GROUP_" then
    ((activeGroups db).find? (fun g =>
      containsCI g.lineGroupId (strDrop identifier 6))).map (·.lineGroupId)
  else if isLineIdToken identifier then
    ((activeGroups db).find? (fun g => g.lineGroupId == identifier)).map (·.lineGroupId)
  else
    ((activeGroups db).find? (fun g =>
      containsCI g.groupName identifier || containsCI g.lineGroupId identifier)).map (·.lineGroupId)

/-- `_parse_transfer_email` (email_service.py lines 127-205) from the
regex results onward.  `none` models every `return None` path: no amount
(or amount `0.0`, falsy at line 162), no group identifier (line 181), or
an identifier that resolves to no active group (line 186).  When the bank
supplies no transaction id a deterministic message-derived fallback is
used (line 172). -/
def parseTransferEmail (db : DB) (subject sender : String) (amountFound : Option ℚ)
    (bankTxIdFound : Option String) (fallbackTxId : String)
    (groupIdentifierFound : Option String) (payerInfoFound : Option String) :
    Option ParsedTransfer :=
  match amountFound with
  | none => none
  | some amount =>
    if amount = 0 then none
    else
      match groupIdentifierFound with
      | none => none
      | some ident =>
        match findGroupByIdentifier db ident with
        | none => none
        | some target =>
          some { emailSubject := subject
                 sender := sender
                 transferAmount := amount
                 transferId := (bankTxIdFound.getD fallbackTxId)
                 targetLineGroupId := target
                 payerInfo := payerInfoFound.getD "未知付款人" }

/-- What `check_and_process_emails` does with one fetched email
(email_service.py lines 92-110). -/
inductive EmailDisposition where
  /-- parse returned `None`: marked SEEN, nothing recorded (line 110) -/
  | notParsedMarkedSeen
  /-- duplicate transfer id: marked SEEN (line 100) -/
  | duplicateMarkedSeen
  /-- credit succeeded: marked SEEN (line 104; unreachable in this
      snapshot, since `_process_parsed_transfer` never returns success) -/
  | successMarkedSeen
  /-- credit attempt failed: left UNSEEN for retry (line 107) -/
  | failedLeftUnseen
deriving Repr, DecidableEq

/-- One iteration of the message loop in `check_and_process_emails`. -/
def processOneEmail (parseFloat : String → ℚ) (db : DB) (subject sender : String)
    (amountFound : Option ℚ) (bankTxIdFound : Option String) (fallbackTxId : String)
    (groupIdentifierFound : Option String) (payerInfoFound : Option String) :
    DB × EmailDisposition :=
  match parseTransferEmail db subject sender amountFound bankTxIdFound fallbackTxId
      groupIdentifierFound payerInfoFound with
  | none => (db, .notParsedMarkedSeen)
  | some p =>
    let r := processParsedTransfer parseFloat db p
    if r.2.2 then (r.1, .duplicateMarkedSeen)
    else if r.2.1 then (r.1, .successMarkedSeen)
    else (r.1, .failedLeftUnseen)

/-! ## BotCommandHandler (app/bot_handler.py) -/

/-- Autoincrement for `groups.id`. -/
def freshGroupId (db : DB) : Nat :=
  (db.groups.map (·.id)).foldr max 0 + 1

/-- `_handle_bind_token` (bot_handler.py lines 27-82): a second bind of
the same line group is refused (lines 36-40); otherwise a group with
balance `0.0` is created.  The `User`/`GroupMember` bookkeeping of lines
53-63 touches no table any claim reads and is omitted. -/
def bindGroup (db : DB) (lineGroupId groupName : String) : DB :=
  match findGroup db lineGroupId with
  | some _ => db
  | none =>
    { db with groups := db.groups ++
        [{ id := freshGroupId db
           lineGroupId := lineGroupId
           groupName := groupName
           tokenBalance := 0
           isActive := true }] }

/-- What `_handle_recharge` (bot_handler.py lines 217-260) replies, and
whether the background worker thread is started.  The float parse of the
cost string is abstracted: `parsedCost = none` models `ValueError`. -/
inductive RechargeDecision where
  | formatError
  | costNotANumber
  | groupNotBound
  | insufficientBalance (currentBalance shortfall : ℚ)
  /-- lines 250-256: the worker thread is started and the user told to wait -/
  | acceptedWorkerDispatched (tokenCost : ℚ)
deriving Repr, DecidableEq

/-- `_handle_recharge`: the only checks before dispatching the worker are
the 5-part format, the float parse, group existence and
`group.token_balance < token_cost` (lines 224, 231-233, 240, 245). -/
def handleRecharge (db : DB) (lineGroupId : String) (partsCount : Nat)
    (parsedCost : Option ℚ) : RechargeDecision :=
  if partsCount ≠ 5 then .formatError
  else
    match parsedCost with
    | none => .costNotANumber
    | some c =>
      match findGroup db lineGroupId with
      | none => .groupNotBound
      | some g =>
        if g.tokenBalance < c then .insufficientBalance g.tokenBalance (c - g.tokenBalance)
        else .acceptedWorkerDispatched c

/-- bot_handler.py lines 163-169: both SEAGM credentials must be present
and non-empty, else the worker raises `ValueError` (caught at line 213). -/
def seagmConfigured (db : DB) : Bool :=
  match findConfig db "seagm_username", findConfig db "seagm_password" with
  | some u, some p => u.configValue != "" && p.configValue != ""
  | _, _ => false

/-- Terminal state of one `_recharge_worker` run. -/
inductive WorkerResult where
  /-- any exception caught at line 213 (missing SEAGM config, vanished group) -/
  | systemError
  /-- automation reported failure: no debit (lines 206-208) -/
  | automationFailed
  /-- automation succeeded but `token_balance < token_cost` at debit time:
      no debit (lines 191-192) -/
  | debitInsufficient (currentBalance : ℚ)
  /-- debit committed (lines 193-205) -/
  | debited (balanceAfter : ℚ)
deriving Repr, DecidableEq

/-- `_recharge_worker` (bot_handler.py lines 150-215).  The Playwright
automation is the external collaborator; its reported outcome is the
`automationSuccess` parameter.  On success the debit is performed inline
in the worker's own session — `with_for_update()` (line 188) serializes
workers of one group — writing a `TokenLog` with type `'withdraw'`,
amount `-token_cost` and **no** `reference_id` (lines 197-203). -/
def rechargeWorker (db : DB) (lineGroupId lineUserId : String) (tokenCost : ℚ)
    (automationSuccess : Bool) (productId gameName : String) : DB × WorkerResult :=
  if !(seagmConfigured db) then (db, .systemError)
  else if automationSuccess then
    match findGroup db lineGroupId with
    | none => (db, .systemError)
    | some g =>
      if g.tokenBalance < tokenCost then (db, .debitInsufficient g.tokenBalance)
      else
        let newLog : TokenLog :=
          { groupId := g.id
            userId := (findUser db lineUserId).map (·.id)
            transactionType := "withdraw"
            amount := -tokenCost
            balanceBefore := g.tokenBalance
            balanceAfter := g.tokenBalance - tokenCost
            referenceId := none
            description := "儲值 " ++ gameName ++ " (" ++ productId ++ ")"
            operator := ((findUser db lineUserId).map (·.displayName)).getD "System" }
        ({ setGroupBalance db lineGroupId (g.tokenBalance - tokenCost) with
            tokenLogs := db.tokenLogs ++ [newLog] },
         .debited (g.tokenBalance - tokenCost))
  else (db, .automationFailed)

/-! ## RazerService (app/services/razer_service.py) -/

/-- Autoincrement for `razer_logs.id`. -/
def freshRazerLogId (db : DB) : Nat :=
  (db.razerLogs.map (·.id)).foldr max 0 + 1

/-- Update one `RazerLog` row by id. -/
def setRazerStatus (db : DB) (logId : Nat) (f : RazerLog → RazerLog) : DB :=
  { db with razerLogs := db.razerLogs.map (fun l => if l.id == logId then f l else l) }

/-- `RazerService.start_recharge_process` plus
`_execute_recharge_automation` (razer_service.py lines 42-78 and 80-182):
inserts a `RazerLog` with status `'starting'`, flips it to `'processing'`,
runs the Selenium automation (abstracted to `automationOk`), then commits
the terminal status `'completed'` or `'failed'`.  No path in this service
writes a `TokenLog` or touches a group balance. -/
def razerStartRechargeProcess (db : DB) (groupId userId : Nat) (amount : ℚ)
    (account : String) (automationOk : Bool) : DB × Bool :=
  let logId := freshRazerLogId db
  let db1 := { db with razerLogs := db.razerLogs ++
      [{ id := logId
         groupId := groupId
         userId := userId
         razerAccount := account
         amount := amount
         tokensUsed := amount
         status := "starting"
         errorMessage := none
         retryCount := 0 }] }
  let db2 := setRazerStatus db1 logId (fun l => { l with status := "processing" })
  if automationOk then
    (setRazerStatus db2 logId (fun l => { l with status := "completed" }), true)
  else
    (setRazerStatus db2 logId
      (fun l => { l with status := "failed"
                         errorMessage := some "automation step failed"
                         retryCount := l.retryCount + 1 }), false)

/-! ## The combined transition system

Every write path of the system, used to state store-wide invariants. -/

/-- One externally-triggered operation against the store. -/
inductive Op where
  | bind (lineGroupId groupName : String)
  | mutate (lineGroupId : String) (amount : ℚ) (transactionType : String)
      (referenceId : Option String)
  | worker (lineGroupId lineUserId : String) (tokenCost : ℚ)
      (automationSuccess : Bool) (productId gameName : String)
  | email (p : ParsedTransfer)
  | razer (groupId userId : Nat) (amount : ℚ) (account : String) (automationOk : Bool)

/-- Effect of one operation on the store. -/
def stepOp (parseFloat : String → ℚ) (db : DB) : Op → DB
  | .bind gid name => bindGroup db gid name
  | .mutate gid amt tt rid => (updateGroupBalance db gid amt tt rid).2
  | .worker gid uid cost ok pid gn => (rechargeWorker db gid uid cost ok pid gn).1
  | .email p => (processParsedTransfer parseFloat db p).1
  | .razer g u a acct ok => (razerStartRechargeProcess db g u a acct ok).1

/-- Effect of a sequence of operations. -/
def runOps (parseFloat : String → ℚ) (db : DB) (ops : List Op) : DB :=
  ops.foldl (stepOp parseFloat) db

/-! ## Invariants -/

/-- No group balance is negative. -/
def NonNegBalances (db : DB) : Prop :=
  ∀ g ∈ db.groups, 0 ≤ g.tokenBalance

/-- `chainOk b ls c`: the rows `ls`, in creation order, form a prefix-sum
chain from balance `b` to balance `c`. -/
def chainOk : ℚ → List TokenLog → ℚ → Bool
  | b, [], c => b == c
  | b, l :: ls, c => l.balanceBefore == b && l.balanceAfter == b + l.amount && chainOk l.balanceAfter ls c

/-- Schema constraints the store relies on: primary key and unique
constraint on `groups`, and the `token_logs.group_id` foreign key. -/
def DBWellFormed (db : DB) : Prop :=
  db.groups.Pairwise (fun g h => g.id ≠ h.id ∧ g.lineGroupId ≠ h.lineGroupId)
  ∧ ∀ l ∈ db.tokenLogs, ∃ g ∈ db.groups, l.groupId = g.id

/-- Every group's ledger chains from 0 to its current balance. -/
def LedgerConsistent (db : DB) : Prop :=
  ∀ g ∈ db.groups, chainOk 0 (logsForGroup db g.id) g.tokenBalance = true

/-- Schema constraints together with ledger-chain consistency. -/
def LedgerInv (db : DB) : Prop :=
  DBWellFormed db ∧ LedgerConsistent db

instance (db : DB) : Decidable (NonNegBalances db) :=
  inferInstanceAs (Decidable (∀ g ∈ db.groups, 0 ≤ g.tokenBalance))

instance (db : DB) : Decidable (DBWellFormed db) :=
  inferInstanceAs (Decidable (_ ∧ ∀ l ∈ db.tokenLogs, ∃ g ∈ db.groups, l.groupId = g.id))

instance (db : DB) : Decidable (LedgerConsistent db) :=
  inferInstanceAs (Decidable (∀ g ∈ db.groups, _ = true))

instance (db : DB) : Decidable (LedgerInv db) :=
  inferInstanceAs (Decidable (_ ∧ _))

/-- `n` successive `_recharge_worker` runs whose automation step reported
success, all against one group: the post-automation debit step iterated.
Returns the final store, the number of debits that committed, and the
number rejected for insufficient balance. -/
def workerDebitN (lineGroupId lineUserId : String) (tokenCost : ℚ)
    (productId gameName : String) : DB → Nat → DB × Nat × Nat
  | db, 0 => (db, 0, 0)
  | db, n + 1 =>
    let r := rechargeWorker db lineGroupId lineUserId tokenCost true productId gameName
    let rest := workerDebitN lineGroupId lineUserId tokenCost productId gameName r.1 n
    match r.2 with
    | .debited _ => (rest.1, rest.2.1 + 1, rest.2.2)
    | .debitInsufficient _ => (rest.1, rest.2.1, rest.2.2 + 1)
    | _ => (rest.1, rest.2.1, rest.2.2)

/-! ## Concrete stores and inputs used by witnesses and counterexamples -/

/-- A parse function for concrete runs that never hit the config table. -/
def pf0 : String → ℚ := fun _ => 0

/-- A parse function mapping the config text `"2"` to the rational 2. -/
def pf2 : String → ℚ := fun s => if s == "2" then 2 else 0

/-- Both SEAGM credentials configured. -/
def seagmRows : List SystemConfigRow :=
  [⟨"seagm_username", "user@example.com"⟩, ⟨"seagm_password", "pw"⟩]

/-- Empty store except for the SEAGM credentials. -/
def dbSeed : DB := ⟨[], [], [], [], [], seagmRows⟩

/-- One bound group `G1` with balance 0. -/
def dbOneGroup : DB := ⟨[⟨1, "G1", "grp", 0, true⟩], [], [], [], [], []⟩

/-- A parsed 100-unit transfer `TX1` aimed at group `G1`. -/
def pC1 : ParsedTransfer := ⟨"subj", "bank@x", 100, "TX1", "G1", "payer"⟩

/-- Group `G4` with balance 500, no logs. -/
def dbC4 : DB := ⟨[⟨1, "G4", "grp", 500, true⟩], [], [], [], [], []⟩

/-- Group `G5` and a token log already carrying the idempotency key
`deposit_transfer_TX1`; no email log for `TX1`. -/
def dbC5 : DB :=
  ⟨[⟨1, "G5", "grp", 500, true⟩], [],
   [⟨1, none, "deposit", 500, 0, 500, some "deposit_transfer_TX1", "", ""⟩],
   [], [], []⟩

/-- The parsed transfer the email pipeline would retry against `dbC5`. -/
def pC5 : ParsedTransfer := ⟨"subj", "bank@x", 500, "TX1", "G5", "payer"⟩

/-- Group `G6` with balance 0. -/
def dbC6 : DB := ⟨[⟨1, "G6", "grp", 0, true⟩], [], [], [], [], []⟩

/-- Group `G7` with balance 10 and the SEAGM credentials configured. -/
def dbC7 : DB := ⟨[⟨1, "G7", "grp", 10, true⟩], [], [], [], [], seagmRows⟩

/-- One active group with a Line-id-shaped identifier and balance 50. -/
def dbC8 : DB := ⟨[⟨1, "C1234567", "grp", 50, true⟩], [], [], [], [], []⟩

/-- Group `G9` with balance 5 and the SEAGM credentials configured. -/
def dbC9 : DB := ⟨[⟨1, "G9", "grp", 5, true⟩], [], [], [], [], seagmRows⟩

/-- Group `GA` with balance 0 and no exchange-rate row. -/
def dbC10a : DB := ⟨[⟨1, "GA", "grp", 0, true⟩], [], [], [], [], []⟩

/-- Group `GA` with balance 0 and `token_exchange_rate = "2"`. -/
def dbC10b : DB :=
  ⟨[⟨1, "GA", "grp", 0, true⟩], [], [], [], [], [⟨"token_exchange_rate", "2"⟩]⟩

/-- Group `GA` with balance 0 and an empty `token_exchange_rate` value. -/
def dbC10c : DB :=
  ⟨[⟨1, "GA", "grp", 0, true⟩], [], [], [], [], [⟨"token_exchange_rate", ""⟩]⟩

/-- A parsed 500-unit transfer `TXa` aimed at group `GA`. -/
def pC10 : ParsedTransfer := ⟨"subj", "bank@x", 500, "TXa", "GA", "payer"⟩

/-! ## Basic lemmas about the embedded queries -/

theorem findGroup_mem {db : DB} {gid : String} {g : Group}
    (h : findGroup db gid = some g) : g ∈ db.groups ∧ g.lineGroupId = gid := by
  refine ⟨List.mem_of_find?_eq_some h, ?_⟩
  have := List.find?_some h
  simpa using this

theorem findGroup_eq_none {db : DB} {gid : String}
    (h : findGroup db gid = none) : ∀ g ∈ db.groups, g.lineGroupId ≠ gid := by
  intro g hg
  have := List.find?_eq_none.mp h g hg
  simpa using this

theorem le_foldr_max {n : Nat} {l : List Nat} (h : n ∈ l) : n ≤ l.foldr max 0 := by
  induction l with
  | nil => cases h
  | cons a t ih =>
    rcases List.mem_cons.mp h with rfl | h
    · exact Nat.le_max_left _ _
    · exact le_trans (ih h) (Nat.le_max_right _ _)

theorem id_lt_freshGroupId {db : DB} {g : Group} (h : g ∈ db.groups) :
    g.id < freshGroupId db :=
  Nat.lt_succ_of_le (le_foldr_max (List.mem_map_of_mem (·.id) h))

/-- In a well-formed store, two groups sharing a line-group id coincide. -/
theorem group_eq_of_lineGroupId {db : DB} (hwf : DBWellFormed db) {a b : Group}
    (ha : a ∈ db.groups) (hb : b ∈ db.groups)
    (hid : a.lineGroupId = b.lineGroupId) : a = b := by
  by_contra hne
  have hsym : Symmetric (fun g h : Group => g.id ≠ h.id ∧ g.lineGroupId ≠ h.lineGroupId) := by
    intro x y hxy
    exact ⟨Ne.symm hxy.1, Ne.symm hxy.2⟩
  exact (hwf.1.forall hsym ha hb hne).2 hid

/-! ## Which tables each write path touches -/

theorem updateGroupBalance_snd (db : DB) (gid : String) (amount : ℚ)
    (tt : String) (rid : Option String) :
    updateGroupBalance db gid amount tt rid = (false, db) := by
  unfold updateGroupBalance
  cases performUpdateBalance db gid amount tt rid <;> rfl

theorem processParsedTransfer_fst (pf : String → ℚ) (db : DB) (p : ParsedTransfer) :
    (processParsedTransfer pf db p).1 = db := by
  unfold processParsedTransfer
  split
  · rfl
  · split <;> rfl

theorem processParsedTransfer_groups (pf : String → ℚ) (db : DB) (p : ParsedTransfer) :
    (processParsedTransfer pf db p).1.groups = db.groups := by
  rw [processParsedTransfer_fst]

theorem processParsedTransfer_tokenLogs (pf : String → ℚ) (db : DB) (p : ParsedTransfer) :
    (processParsedTransfer pf db p).1.tokenLogs = db.tokenLogs := by
  rw [processParsedTransfer_fst]

theorem razer_groups (db : DB) (g u : Nat) (a : ℚ) (acct : String) (ok : Bool) :
    (razerStartRechargeProcess db g u a acct ok).1.groups = db.groups := by
  unfold razerStartRechargeProcess
  split <;> rfl

theorem razer_tokenLogs (db : DB) (g u : Nat) (a : ℚ) (acct : String) (ok : Bool) :
    (razerStartRechargeProcess db g u a acct ok).1.tokenLogs = db.tokenLogs := by
  unfold razerStartRechargeProcess
  split <;> rfl

theorem setGroupBalance_tokenLogs (db : DB) (gid : String) (b : ℚ) :
    (setGroupBalance db gid b).tokenLogs = db.tokenLogs := rfl

/-! ## Prefix-sum chains -/

theorem chainOk_append_single {ls : List TokenLog} {b c : ℚ} {l : TokenLog}
    (h : chainOk b ls c = true) (h1 : l.balanceBefore = c)
    (h2 : l.balanceAfter = c + l.amount) :
    chainOk b (ls ++ [l]) l.balanceAfter = true := by
  induction ls generalizing b with
  | nil =>
    have hb : b = c := by simpa [chainOk] using h
    subst hb
    simp [chainOk, h1, h2]
  | cons x t ih =>
    simp only [chainOk, Bool.and_eq_true, beq_iff_eq] at h
    simp only [List.cons_append, chainOk, Bool.and_eq_true, beq_iff_eq]
    exact ⟨⟨h.1.1, h.1.2⟩, ih h.2⟩

theorem chainOk_sum {ls : List TokenLog} {b c : ℚ} (h : chainOk b ls c = true) :
    c = b + (ls.map (·.amount)).sum := by
  induction ls generalizing b with
  | nil =>
    have hb : b = c := by simpa [chainOk] using h
    simp [← hb]
  | cons x t ih =>
    simp only [chainOk, Bool.and_eq_true, beq_iff_eq] at h
    have := ih h.2
    rw [this, h.1.2]
    simp [List.sum_cons]
    ring

theorem chainOk_entries {ls : List TokenLog} {b c : ℚ} (h : chainOk b ls c = true) :
    ∀ l ∈ ls, l.balanceAfter = l.balanceBefore + l.amount := by
  induction ls generalizing b with
  | nil => intro l hl; cases hl
  | cons x t ih =>
    simp only [chainOk, Bool.and_eq_true, beq_iff_eq] at h
    intro l hl
    rcases List.mem_cons.mp hl with rfl | hl
    · rw [h.1.2, h.1.1]
    · exact ih h.2 l hl

/-! ## Preservation of non-negativity -/

theorem nonNeg_of_groups_eq {db db' : DB} (hg : db'.groups = db.groups)
    (h : NonNegBalances db) : NonNegBalances db' := by
  intro g hmem
  rw [hg] at hmem
  exact h g hmem

theorem bindGroup_nonneg {db : DB} (h : NonNegBalances db) (gid name : String) :
    NonNegBalances (bindGroup db gid name) := by
  unfold bindGroup
  split
  · exact h
  · intro g hg
    rcases List.mem_append.mp hg with hg | hg
    · exact h g hg
    · simp only [List.mem_singleton] at hg
      subst hg
      norm_num

theorem rechargeWorker_nonneg {db : DB} (h : NonNegBalances db)
    (gid uid : String) (cost : ℚ) (ok : Bool) (pid gn : String) :
    NonNegBalances (rechargeWorker db gid uid cost ok pid gn).1 := by
  unfold rechargeWorker
  split
  · exact h
  split
  · split
    · exact h
    · split
      · exact h
      · rename_i g heq hlt
        intro g' hg'
        simp only [setGroupBalance, List.mem_map] at hg'
        obtain ⟨x, hx, rfl⟩ := hg'
        by_cases hxid : (x.lineGroupId == gid) = true
        · simp only [hxid, if_true]
          have : cost ≤ g.tokenBalance := le_of_not_lt hlt
          simpa using sub_nonneg.mpr this
        · simp only [hxid, if_false]
          exact h x hx
  · exact h

theorem stepOp_nonneg (pf : String → ℚ) {db : DB} (h : NonNegBalances db) (op : Op) :
    NonNegBalances (stepOp pf db op) := by
  cases op with
  | bind gid name => exact bindGroup_nonneg h gid name
  | mutate gid amt tt rid =>
    have := updateGroupBalance_snd db gid amt tt rid
    simp only [stepOp, this]
    exact h
  | worker gid uid cost ok pid gn => exact rechargeWorker_nonneg h gid uid cost ok pid gn
  | email p => exact nonNeg_of_groups_eq (processParsedTransfer_groups pf db p) h
  | razer g u a acct ok => exact nonNeg_of_groups_eq (razer_groups db g u a acct ok) h

theorem runOps_nonneg (pf : String → ℚ) {db : DB} (h : NonNegBalances db)
    (ops : List Op) : NonNegBalances (runOps pf db ops) := by
  induction ops generalizing db with
  | nil => exact h
  | cons op rest ih => exact ih (stepOp_nonneg pf h op)

/-! ## Preservation of ledger-chain consistency -/

theorem ledgerInv_congr {db db' : DB} (hg : db'.groups = db.groups)
    (hl : db'.tokenLogs = db.tokenLogs) (h : LedgerInv db) : LedgerInv db' := by
  obtain ⟨⟨hpw, hfk⟩, hc⟩ := h
  refine ⟨⟨by rw [hg]; exact hpw, ?_⟩, ?_⟩
  · intro l hmem
    rw [hl] at hmem
    obtain ⟨g, hgmem, hid⟩ := hfk l hmem
    exact ⟨g, by rw [hg]; exact hgmem, hid⟩
  · intro g hmem
    rw [hg] at hmem
    have := hc g hmem
    unfold logsForGroup at this ⊢
    rw [hl]
    exact this

theorem bindGroup_ledgerInv {db : DB} (h : LedgerInv db) (gid name : String) :
    LedgerInv (bindGroup db gid name) := by
  obtain ⟨⟨hpw, hfk⟩, hc⟩ := h
  unfold bindGroup
  cases hfind : findGroup db gid with
  | some g => exact ⟨⟨hpw, hfk⟩, hc⟩
  | none =>
    refine ⟨⟨?_, ?_⟩, ?_⟩
    · rw [List.pairwise_append]
      refine ⟨hpw, List.pairwise_singleton _ _, ?_⟩
      intro a ha b hb
      simp only [List.mem_singleton] at hb
      subst hb
      exact ⟨Nat.ne_of_lt (id_lt_freshGroupId ha), findGroup_eq_none hfind a ha⟩
    · intro l hmem
      obtain ⟨g, hgmem, hid⟩ := hfk l hmem
      exact ⟨g, List.mem_append_left _ hgmem, hid⟩
    · intro g hmem
      rcases List.mem_append.mp hmem with hg | hg
      · exact hc g hg
      · simp only [List.mem_singleton] at hg
        subst hg
        have hnil : logsForGroup db (freshGroupId db) = [] := by
          unfold logsForGroup
          rw [List.filter_eq_nil_iff]
          intro l hmeml
          obtain ⟨g', hg', hid⟩ := hfk l hmeml
          simp only [beq_iff_eq, hid]
          exact Nat.ne_of_lt (id_lt_freshGroupId hg')
        show chainOk 0 (logsForGroup db (freshGroupId db)) 0 = true
        rw [hnil]
        simp [chainOk]

/-- In a well-formed store, distinct groups have distinct primary keys. -/
theorem group_id_ne_of_ne {db : DB} (hwf : DBWellFormed db) {a b : Group}
    (ha : a ∈ db.groups) (hb : b ∈ db.groups) (hne : a ≠ b) : a.id ≠ b.id := by
  have hsym : Symmetric (fun g h : Group => g.id ≠ h.id ∧ g.lineGroupId ≠ h.lineGroupId) := by
    intro x y hxy
    exact ⟨Ne.symm hxy.1, Ne.symm hxy.2⟩
  exact (hwf.1.forall hsym ha hb hne).1

/-- The inline debit of `_recharge_worker` (bot_handler.py lines 193-204)
preserves well-formedness and every ledger chain: `l` is the appended
withdraw row. -/
theorem ledgerInv_debit {db : DB} (h : LedgerInv db) {g : Group} {gid : String}
    (heq : findGroup db gid = some g) {cost : ℚ} {l : TokenLog}
    (hlgid : l.groupId = g.id) (hlb : l.balanceBefore = g.tokenBalance)
    (hla : l.balanceAfter = g.tokenBalance - cost) (hlam : l.amount = -cost) :
    LedgerInv { setGroupBalance db gid (g.tokenBalance - cost) with
        tokenLogs := db.tokenLogs ++ [l] } := by
  obtain ⟨⟨hpw, hfk⟩, hc⟩ := h
  obtain ⟨hgmem, hgid⟩ := findGroup_mem heq
  have hfid : ∀ x : Group,
      ((if x.lineGroupId == gid then { x with tokenBalance := g.tokenBalance - cost } else x) : Group).id = x.id := by
    intro x
    by_cases hx : (x.lineGroupId == gid) = true <;> simp [hx]
  have hfgid : ∀ x : Group,
      ((if x.lineGroupId == gid then { x with tokenBalance := g.tokenBalance - cost } else x) : Group).lineGroupId = x.lineGroupId := by
    intro x
    by_cases hx : (x.lineGroupId == gid) = true <;> simp [hx]
  refine ⟨⟨?_, ?_⟩, ?_⟩
  · exact hpw.map _ (fun a b hab =>
      ⟨by rw [hfid, hfid]; exact hab.1, by rw [hfgid, hfgid]; exact hab.2⟩)
  · intro e hmem
    rcases List.mem_append.mp hmem with hmem | hmem
    · obtain ⟨g', hg', hid⟩ := hfk e hmem
      exact ⟨_, List.mem_map_of_mem _ hg', hid.trans (hfid g').symm⟩
    · simp only [List.mem_singleton] at hmem
      subst hmem
      exact ⟨_, List.mem_map_of_mem _ hgmem, hlgid.trans (hfid g).symm⟩
  · intro g' hg'
    simp only [setGroupBalance, List.mem_map] at hg'
    obtain ⟨x, hx, rfl⟩ := hg'
    unfold logsForGroup
    by_cases hxcase : (x.lineGroupId == gid) = true
    · have hxg : x = g := by
        apply group_eq_of_lineGroupId ⟨hpw, hfk⟩ hx hgmem
        rw [hgid]
        exact beq_iff_eq.mp hxcase
      subst hxg
      rw [if_pos hxcase]
      dsimp only
      show chainOk 0 (List.filter _ (db.tokenLogs ++ [l])) _ = true
      rw [List.filter_append]
      have hfilter : List.filter (fun e => e.groupId == x.id) [l] = [l] := by
        simp [List.filter_cons, List.filter_nil, hlgid]
      rw [hfilter]
      have hext := chainOk_append_single (hc x hx) hlb
        (by rw [hla, hlam]; ring)
      rw [hla] at hext
      exact hext
    · have hxg : x ≠ g := by
        intro hcon
        apply hxcase
        rw [hcon]
        exact beq_iff_eq.mpr hgid
      rw [if_neg hxcase]
      show chainOk 0 (List.filter _ (db.tokenLogs ++ [l])) _ = true
      rw [List.filter_append]
      have hne : g.id ≠ x.id := group_id_ne_of_ne ⟨hpw, hfk⟩ hgmem hx (Ne.symm hxg)
      have hfilter : List.filter (fun e => e.groupId == x.id) [l] = [] := by
        simp [List.filter_cons, List.filter_nil, hlgid, beq_iff_eq, hne]
      rw [hfilter, List.append_nil]
      exact hc x hx

theorem rechargeWorker_ledgerInv {db : DB} (h : LedgerInv db)
    (gid uid : String) (cost : ℚ) (ok : Bool) (pid gn : String) :
    LedgerInv (rechargeWorker db gid uid cost ok pid gn).1 := by
  unfold rechargeWorker
  split
  · exact h
  split
  · split
    · exact h
    · split
      · exact h
      · rename_i g heq hlt
        exact ledgerInv_debit h heq rfl rfl rfl rfl
  · exact h

theorem stepOp_ledgerInv (pf : String → ℚ) {db : DB} (h : LedgerInv db) (op : Op) :
    LedgerInv (stepOp pf db op) := by
  cases op with
  | bind gid name => exact bindGroup_ledgerInv h gid name
  | mutate gid amt tt rid =>
    have := updateGroupBalance_snd db gid amt tt rid
    simp only [stepOp, this]
    exact h
  | worker gid uid cost ok pid gn => exact rechargeWorker_ledgerInv h gid uid cost ok pid gn
  | email p =>
    exact ledgerInv_congr (processParsedTransfer_groups pf db p)
      (processParsedTransfer_tokenLogs pf db p) h
  | razer g u a acct ok =>
    exact ledgerInv_congr (razer_groups db g u a acct ok)
      (razer_tokenLogs db g u a acct ok) h

theorem runOps_ledgerInv (pf : String → ℚ) {db : DB} (h : LedgerInv db)
    (ops : List Op) : LedgerInv (runOps pf db ops) := by
  induction ops generalizing db with
  | nil => exact h
  | cons op rest ih => exact ih (stepOp_ledgerInv pf h op)

/-! ## The two outcomes of the worker's debit step -/

theorem rechargeWorker_insufficient_eq {db : DB} {gid : String} {g : Group}
    (uid : String) {cost : ℚ} (pid gn : String)
    (hg : findGroup db gid = some g) (hcfg : seagmConfigured db = true)
    (hlt : g.tokenBalance < cost) :
    rechargeWorker db gid uid cost true pid gn = (db, .debitInsufficient g.tokenBalance) := by
  unfold rechargeWorker
  rw [hcfg]
  simp only [Bool.not_true, Bool.false_eq_true, if_false, if_true, hg]
  rw [if_pos hlt]

theorem rechargeWorker_debit_eq {db : DB} {gid : String} {g : Group}
    (uid : String) {cost : ℚ} (pid gn : String)
    (hg : findGroup db gid = some g) (hcfg : seagmConfigured db = true)
    (hbal : ¬(g.tokenBalance < cost)) :
    rechargeWorker db gid uid cost true pid gn
      = ({ setGroupBalance db gid (g.tokenBalance - cost) with
            tokenLogs := db.tokenLogs ++
              [{ groupId := g.id
                 userId := (findUser db uid).map (·.id)
                 transactionType := "withdraw"
                 amount := -cost
                 balanceBefore := g.tokenBalance
                 balanceAfter := g.tokenBalance - cost
                 referenceId := none
                 description := "儲值 " ++ gn ++ " (" ++ pid ++ ")"
                 operator := ((findUser db uid).map (·.displayName)).getD "System" }] },
         .debited (g.tokenBalance - cost)) := by
  unfold rechargeWorker
  rw [hcfg]
  simp only [Bool.not_true, Bool.false_eq_true, if_false, if_true, hg]
  rw [if_neg hbal]

/-- Updating a group's balance moves the group the lookup returns, with
only its balance changed. -/
theorem findGroup_after_setBalance {db : DB} {gid : String} {g : Group} (b : ℚ)
    (hg : findGroup db gid = some g) :
    findGroup (setGroupBalance db gid b) gid = some { g with tokenBalance := b } := by
  have hgid : g.lineGroupId = gid := (findGroup_mem hg).2
  unfold findGroup at hg ⊢
  unfold setGroupBalance
  rw [List.find?_map]
  have hpf : ((fun g' : Group => g'.lineGroupId == gid) ∘
      (fun x => if x.lineGroupId == gid then { x with tokenBalance := b } else x))
      = fun g' : Group => g'.lineGroupId == gid := by
    funext x
    simp only [Function.comp_apply]
    by_cases hx : (x.lineGroupId == gid) = true
    · rw [if_pos hx]
    · rw [if_neg hx]
  rw [hpf, hg]
  simp [beq_iff_eq, hgid]

/-- Counting lemma for iterated worker debits against one group: with the
row lock serializing them, `N` attempts of amount `A > 0` against balance
`b ≥ 0` commit exactly `min N ⌊b/A⌋` debits, the rest rejected as
insufficient. -/
theorem workerDebitN_count {gid uid pid gn : String} {A : ℚ} (hA : 0 < A) :
    ∀ (N : Nat) (db : DB) (g : Group), findGroup db gid = some g →
      seagmConfigured db = true → 0 ≤ g.tokenBalance →
      (((workerDebitN gid uid A pid gn db N).2.1 : ℤ)
          = min (N : ℤ) ⌊g.tokenBalance / A⌋
        ∧ (workerDebitN gid uid A pid gn db N).2.1
            + (workerDebitN gid uid A pid gn db N).2.2 = N) := by
  intro N
  induction N with
  | zero =>
    intro db g hg hcfg hb
    have hfl : (0 : ℤ) ≤ ⌊g.tokenBalance / A⌋ :=
      Int.floor_nonneg.mpr (div_nonneg hb hA.le)
    constructor
    · simp [workerDebitN]
      exact hfl
    · simp [workerDebitN]
  | succ n ih =>
    intro db g hg hcfg hb
    by_cases hlt : g.tokenBalance < A
    · have hstep := rechargeWorker_insufficient_eq uid pid gn hg hcfg hlt
      have hrest := ih db g hg hcfg hb
      have hfl : ⌊g.tokenBalance / A⌋ = 0 :=
        Int.floor_eq_zero_iff.mpr
          ⟨div_nonneg hb hA.le, (div_lt_one hA).mpr hlt⟩
      have hmin0 : ∀ m : Nat, min (m : ℤ) ⌊g.tokenBalance / A⌋ = 0 := by
        intro m
        rw [hfl]
        exact min_eq_right (Int.ofNat_nonneg m)
      constructor
      · show ((workerDebitN gid uid A pid gn db (n + 1)).2.1 : ℤ) = _
        rw [hmin0]
        simp only [workerDebitN, hstep]
        rw [hmin0 n] at hrest
        exact_mod_cast hrest.1
      · simp only [workerDebitN, hstep]
        have := hrest.2
        omega
    · have hstep := rechargeWorker_debit_eq uid pid gn hg hcfg hlt
      have hg' : findGroup (rechargeWorker db gid uid A true pid gn).1 gid
          = some { g with tokenBalance := g.tokenBalance - A } := by
        rw [hstep]
        exact findGroup_after_setBalance (g.tokenBalance - A) hg
      have hcfg' : seagmConfigured (rechargeWorker db gid uid A true pid gn).1 = true := by
        rw [hstep]
        exact hcfg
      have hb' : (0 : ℚ) ≤ g.tokenBalance - A := sub_nonneg.mpr (not_lt.mp hlt)
      have hrest := ih (rechargeWorker db gid uid A true pid gn).1
        { g with tokenBalance := g.tokenBalance - A } hg' hcfg' hb'
      have hflstep : ⌊(g.tokenBalance - A) / A⌋ = ⌊g.tokenBalance / A⌋ - 1 := by
        rw [sub_div, div_self hA.ne']
        exact Int.floor_sub_one _
      constructor
      · show ((workerDebitN gid uid A pid gn db (n + 1)).2.1 : ℤ) = _
        have hcount : (workerDebitN gid uid A pid gn db (n + 1)).2.1
            = (workerDebitN gid uid A pid gn
                (rechargeWorker db gid uid A true pid gn).1 n).2.1 + 1 := by
          simp only [workerDebitN, hstep]
        rw [hcount]
        push_cast
        rw [hrest.1]
        show min (n : ℤ) ⌊({ g with tokenBalance := g.tokenBalance - A } : Group).tokenBalance / A⌋ + 1 = _
        show min (n : ℤ) ⌊(g.tokenBalance - A) / A⌋ + 1 = _
        rw [hflstep, ← min_add_add_right]
        congr 1
        omega
      · have hcount : (workerDebitN gid uid A pid gn db (n + 1)).2.1
              = (workerDebitN gid uid A pid gn
                  (rechargeWorker db gid uid A true pid gn).1 n).2.1 + 1
            ∧ (workerDebitN gid uid A pid gn db (n + 1)).2.2
              = (workerDebitN gid uid A pid gn
                  (rechargeWorker db gid uid A true pid gn).1 n).2.2 := by
          constructor <;> simp only [workerDebitN, hstep]
        rw [hcount.1, hcount.2]
        have := hrest.2
        omega

/-! ## Claim theorems -/

/-- C2: a debit for which `balance + amount < 0` is refused by
`_perform_update_balance` with the insufficient-balance outcome, the call
returns `False` with the store untouched and no ledger row written; the
worker's inline debit likewise refuses when `balance < cost`; and along
any sequence of operations no group balance ever becomes negative. -/
theorem C2_debits_never_drive_balance_negative (pf : String → ℚ) (db : DB)
    (ops : List Op) (hnn : NonNegBalances db) :
    NonNegBalances (runOps pf db ops)
    ∧ (∀ gid amount tt rid g, findGroup db gid = some g →
        referenceIdCollides db rid = false →
        amount < 0 → g.tokenBalance + amount < 0 →
          performUpdateBalance db gid amount tt rid
              = .returnedFalse .insufficientBalance
            ∧ updateGroupBalance db gid amount tt rid = (false, db))
    ∧ (∀ gid uid cost pid gn g, findGroup db gid = some g →
        seagmConfigured db = true → g.tokenBalance < cost →
          rechargeWorker db gid uid cost true pid gn
              = (db, .debitInsufficient g.tokenBalance)) := by
  refine ⟨runOps_nonneg pf hnn ops, ?_, ?_⟩
  · intro gid amount tt rid g hg hrid hneg hshort
    constructor
    · unfold performUpdateBalance
      rw [hg]
      dsimp only
      rw [if_neg (by rw [hrid]; exact Bool.false_ne_true)]
      rw [if_pos ⟨hneg, hshort⟩]
    · exact updateGroupBalance_snd db gid amount tt rid
  · intro gid uid cost pid gn g hg hcfg hlt
    unfold rechargeWorker
    rw [hcfg]
    dsimp only
    rw [if_neg (by simp), if_pos rfl, hg]
    dsimp only
    rw [if_pos hlt]

/-- C2 witness: a store with one group of balance 5 is non-negative, and
the claim's conclusion holds for it under a debit sequence. -/
theorem C2_witness :
    NonNegBalances ⟨[⟨1, "GW", "w", 5, true⟩], [], [], [], [], []⟩
    ∧ (NonNegBalances (runOps pf0 ⟨[⟨1, "GW", "w", 5, true⟩], [], [], [], [], []⟩
          [.mutate "GW" (-7) "withdraw" (some "k1")])
      ∧ (∀ gid amount tt rid g,
          findGroup ⟨[⟨1, "GW", "w", 5, true⟩], [], [], [], [], []⟩ gid = some g →
          referenceIdCollides ⟨[⟨1, "GW", "w", 5, true⟩], [], [], [], [], []⟩ rid = false →
          amount < 0 → g.tokenBalance + amount < 0 →
            performUpdateBalance ⟨[⟨1, "GW", "w", 5, true⟩], [], [], [], [], []⟩
                gid amount tt rid = .returnedFalse .insufficientBalance
              ∧ updateGroupBalance ⟨[⟨1, "GW", "w", 5, true⟩], [], [], [], [], []⟩
                  gid amount tt rid
                  = (false, ⟨[⟨1, "GW", "w", 5, true⟩], [], [], [], [], []⟩))
      ∧ (∀ gid uid cost pid gn g,
          findGroup ⟨[⟨1, "GW", "w", 5, true⟩], [], [], [], [], []⟩ gid = some g →
          seagmConfigured ⟨[⟨1, "GW", "w", 5, true⟩], [], [], [], [], []⟩ = true →
          g.tokenBalance < cost →
            rechargeWorker ⟨[⟨1, "GW", "w", 5, true⟩], [], [], [], [], []⟩
                gid uid cost true pid gn
                = (⟨[⟨1, "GW", "w", 5, true⟩], [], [], [], [], []⟩,
                   .debitInsufficient g.tokenBalance))) :=
  ⟨by decide,
   C2_debits_never_drive_balance_negative pf0
     ⟨[⟨1, "GW", "w", 5, true⟩], [], [], [], [], []⟩
     [.mutate "GW" (-7) "withdraw" (some "k1")]
     (by decide)⟩

/-- C3: along any sequence of operations from a consistent store, every
token-log row satisfies `balance_after = balance_before + amount`, and
each group's balance equals the sum of the amounts of its rows. -/
theorem C3_ledger_prefix_sum_chain (pf : String → ℚ) (db : DB) (ops : List Op)
    (h : LedgerInv db) :
    ∀ g ∈ (runOps pf db ops).groups,
      (∀ l ∈ logsForGroup (runOps pf db ops) g.id,
          l.balanceAfter = l.balanceBefore + l.amount)
      ∧ g.tokenBalance = ((logsForGroup (runOps pf db ops) g.id).map (·.amount)).sum := by
  intro g hg
  have hinv := runOps_ledgerInv pf h ops
  have hchain := hinv.2 g hg
  refine ⟨chainOk_entries hchain, ?_⟩
  have := chainOk_sum hchain
  simpa using this

/-- C3 witness: starting from the seeded empty store and binding a group,
the prefix-sum property holds. -/
theorem C3_witness :
    LedgerInv dbSeed
    ∧ ∀ g ∈ (runOps pf0 dbSeed [.bind "GW" "w"]).groups,
        (∀ l ∈ logsForGroup (runOps pf0 dbSeed [.bind "GW" "w"]) g.id,
            l.balanceAfter = l.balanceBefore + l.amount)
        ∧ g.tokenBalance
            = ((logsForGroup (runOps pf0 dbSeed [.bind "GW" "w"]) g.id).map (·.amount)).sum :=
  ⟨by decide, C3_ledger_prefix_sum_chain pf0 dbSeed [.bind "GW" "w"] (by decide)⟩

/-- C1: the idempotency guard of `_perform_update_balance` (lines 35-39)
and the transfer-id guard of `_process_parsed_transfer` (lines 233-238)
do prevent a second application — but the first application never lands
either.  A direct mutator call that passes the guards reaches the
`TokenLog` construction at token_service.py line 56, whose argument
expression `isinstance(actual_transaction_type, Enum)` (line 59) raises
`NameError` because `Enum` is never imported in token_service.py, and the
transaction rolls back; a credit routed through the email pipeline dies
even earlier, at the `EmailLog` construction of email_service.py lines
245-250 (`TypeError`: no `raw_body` column).  Applying the same keyed
credit twice therefore yields ZERO ledger rows and an unchanged balance —
not the one row and single balance change the claim requires. -/
theorem C1_keyed_credit_twice_writes_no_row_at_all :
    updateGroupBalance dbOneGroup "G1" 100 "deposit" (some "TX1") = (false, dbOneGroup)
    ∧ runOps pf0 dbOneGroup
        [.mutate "G1" 100 "deposit" (some "TX1"),
         .mutate "G1" 100 "deposit" (some "TX1")] = dbOneGroup
    ∧ (runOps pf0 dbOneGroup
        [.mutate "G1" 100 "deposit" (some "TX1"),
         .mutate "G1" 100 "deposit" (some "TX1")]).tokenLogs.length = 0
    ∧ performUpdateBalance dbOneGroup "G1" 100 "deposit" (some "TX1")
        = .nameErrorUnboundEnum 0 100 "deposit"
    ∧ processParsedTransfer pf0 dbOneGroup pC1 = (dbOneGroup, false, false)
    ∧ processParsedTransfer pf0 (processParsedTransfer pf0 dbOneGroup pC1).1 pC1
        = (dbOneGroup, false, false) := by
  have hconv : convertTransactionType "deposit" = "deposit" := by decide
  have hrun : runOps pf0 dbOneGroup
      [.mutate "G1" 100 "deposit" (some "TX1"),
       .mutate "G1" 100 "deposit" (some "TX1")] = dbOneGroup := by
    simp [runOps, stepOp, updateGroupBalance_snd]
  have hproc : processParsedTransfer pf0 dbOneGroup pC1 = (dbOneGroup, false, false) := by
    decide
  refine ⟨updateGroupBalance_snd _ _ _ _ _, hrun, by rw [hrun]; rfl, ?_, hproc, ?_⟩
  · norm_num [performUpdateBalance, findGroup, dbOneGroup, referenceIdCollides, hconv]
  · rw [hproc]
    exact hproc

/-- C4 counterexample: the razer flow drives a redemption record to
status `completed` while writing no debit token-log row and leaving every
group balance untouched — refuting "a debit LedgerEntry exists iff status
is completed". -/
theorem C4_counterexample_completed_without_debit :
    (razerStartRechargeProcess dbC4 1 7 500 "acct" true).2 = true
    ∧ ((razerStartRechargeProcess dbC4 1 7 500 "acct" true).1.razerLogs.map (·.status))
        = ["completed"]
    ∧ (razerStartRechargeProcess dbC4 1 7 500 "acct" true).1.tokenLogs = []
    ∧ (razerStartRechargeProcess dbC4 1 7 500 "acct" true).1.groups = dbC4.groups := by
  refine ⟨rfl, ?_, razer_tokenLogs dbC4 1 7 500 "acct" true,
    razer_groups dbC4 1 7 500 "acct" true⟩
  norm_num [razerStartRechargeProcess, setRazerStatus, freshRazerLogId, dbC4]

/-- C4 amended: redemption records (`RazerLog` rows) are written only by
the razer flow, which never writes any token-log row and never touches a
group, whatever the automation outcome — so no redemption record ever has
an associated debit ledger entry; and when the automation step of the live
worker reports failure, the worker leaves the store untouched and writes
no ledger entry. -/
theorem C4_amended_redemption_records_never_debited (db : DB) (g u : Nat) (a : ℚ)
    (acct : String) (ok : Bool) (gid uid pid gn : String) (cost : ℚ)
    (hcfg : seagmConfigured db = true) :
    (razerStartRechargeProcess db g u a acct ok).1.tokenLogs = db.tokenLogs
    ∧ (razerStartRechargeProcess db g u a acct ok).1.groups = db.groups
    ∧ rechargeWorker db gid uid cost false pid gn = (db, .automationFailed) := by
  refine ⟨razer_tokenLogs db g u a acct ok, razer_groups db g u a acct ok, ?_⟩
  unfold rechargeWorker
  rw [hcfg]
  simp

/-- C4 amended witness. -/
theorem C4_amended_witness :
    seagmConfigured dbC7 = true
    ∧ ((razerStartRechargeProcess dbC7 1 7 500 "acct" false).1.tokenLogs = dbC7.tokenLogs
      ∧ (razerStartRechargeProcess dbC7 1 7 500 "acct" false).1.groups = dbC7.groups
      ∧ rechargeWorker dbC7 "G7" "U7" 5 false "13664" "IdentityV"
          = (dbC7, .automationFailed)) :=
  ⟨by decide,
   C4_amended_redemption_records_never_debited dbC7 1 7 500 "acct" false
     "G7" "U7" "13664" "IdentityV" 5 (by decide)⟩

/-- C6 counterexample: a redemption request with `token_cost = -5`
against a group whose balance is 0 passes every pre-check and dispatches
the background worker — `_handle_recharge` never verifies
`token_cost > 0`. -/
theorem C6_counterexample_nonpositive_cost_dispatched :
    handleRecharge dbC6 "G6" 5 (some (-5)) = .acceptedWorkerDispatched (-5)
    ∧ ¬((-5 : ℚ) > 0) := by
  constructor
  · norm_num [handleRecharge, findGroup, dbC6]
  · norm_num

/-- C6 amended: before dispatch `_handle_recharge` checks only the
message format, the float parse, group existence, and
`balance >= token_cost` — rejecting with the insufficient-balance reply
(current balance and shortfall) without dispatching when the balance is
short, and dispatching the worker otherwise; it does not require
`token_cost > 0`. -/
theorem C6_amended_precheck_without_positivity (db : DB) (gid : String)
    (c : ℚ) (g : Group) (hg : findGroup db gid = some g) :
    (g.tokenBalance < c →
      handleRecharge db gid 5 (some c)
        = .insufficientBalance g.tokenBalance (c - g.tokenBalance))
    ∧ (¬(g.tokenBalance < c) →
      handleRecharge db gid 5 (some c) = .acceptedWorkerDispatched c)
    ∧ handleRecharge db gid 5 none = .costNotANumber
    ∧ ∀ n : Nat, n ≠ 5 → handleRecharge db gid n (some c) = .formatError := by
  refine ⟨?_, ?_, ?_, ?_⟩
  · intro hlt
    unfold handleRecharge
    rw [if_neg (by norm_num), hg]
    dsimp only
    rw [if_pos hlt]
  · intro hge
    unfold handleRecharge
    rw [if_neg (by norm_num), hg]
    dsimp only
    rw [if_neg hge]
  · unfold handleRecharge
    rw [if_neg (by norm_num)]
  · intro n hn
    unfold handleRecharge
    rw [if_pos hn]

/-- C6 amended witness: balance 0, cost 100 is rejected as insufficient. -/
theorem C6_amended_witness :
    findGroup dbC6 "G6" = some ⟨1, "G6", "grp", 0, true⟩
    ∧ ((0 : ℚ) < 100 →
        handleRecharge dbC6 "G6" 5 (some 100) = .insufficientBalance 0 (100 - 0)) :=
  ⟨by decide,
   (C6_amended_precheck_without_positivity dbC6 "G6" 100 ⟨1, "G6", "grp", 0, true⟩
     (by decide)).1⟩

/-- C7 counterexample: re-running the post-automation step of the worker
performs a second full debit — the debit is inline (not through the
Balance Mutator), typed `'withdraw'`, and carries NO idempotency key, so
a crash-and-retry double-debits the group. -/
theorem C7_counterexample_retry_double_debits :
    (let d1 := (rechargeWorker dbC7 "G7" "U7" 5 true "13664" "IdentityV").1
     let d2 := (rechargeWorker d1 "G7" "U7" 5 true "13664" "IdentityV").1
     d2.tokenLogs.map (fun l => (l.transactionType, l.amount, l.referenceId))
         = [("withdraw", -5, none), ("withdraw", -5, none)]
       ∧ (findGroup d2 "G7").map (·.tokenBalance) = some 0) := by
  have h1 : (rechargeWorker dbC7 "G7" "U7" 5 true "13664" "IdentityV").1
      = ⟨[⟨1, "G7", "grp", 5, true⟩], [],
         [⟨1, none, "withdraw", -5, 10, 5, none, "儲值 IdentityV (13664)", "System"⟩],
         [], [], seagmRows⟩ := by
    rw [rechargeWorker_debit_eq "U7" "13664" "IdentityV"
      (show findGroup dbC7 "G7" = some ⟨1, "G7", "grp", 10, true⟩ by decide)
      (by decide) (by norm_num)]
    norm_num [setGroupBalance, dbC7, findUser]
    simp
  have h2 : (rechargeWorker
        (⟨[⟨1, "G7", "grp", 5, true⟩], [],
          [⟨1, none, "withdraw", -5, 10, 5, none, "儲值 IdentityV (13664)", "System"⟩],
          [], [], seagmRows⟩ : DB) "G7" "U7" 5 true "13664" "IdentityV").1
      = ⟨[⟨1, "G7", "grp", 0, true⟩], [],
         [⟨1, none, "withdraw", -5, 10, 5, none, "儲值 IdentityV (13664)", "System"⟩,
          ⟨1, none, "withdraw", -5, 5, 0, none, "儲值 IdentityV (13664)", "System"⟩],
         [], [], seagmRows⟩ := by
    rw [rechargeWorker_debit_eq "U7" "13664" "IdentityV"
      (g := ⟨1, "G7", "grp", 5, true⟩) (by decide) (by decide) (by norm_num)]
    norm_num [setGroupBalance, findUser]
    simp
  show (let d1 := (rechargeWorker dbC7 "G7" "U7" 5 true "13664" "IdentityV").1
        let d2 := (rechargeWorker d1 "G7" "U7" 5 true "13664" "IdentityV").1
        _ ∧ _)
  rw [h1, h2]
  exact ⟨by decide, by decide⟩

/-- C7 amended: on automation success the worker debits the group inline
in its own session (bot_handler.py lines 187-204), writing one token-log
row with type `'withdraw'`, amount `-token_cost`, and `reference_id`
NULL — no idempotency key — so each re-run with sufficient balance debits
again. -/
theorem C7_amended_inline_debit_without_key (db : DB) (gid uid pid gn : String)
    (cost : ℚ) (g : Group) (hg : findGroup db gid = some g)
    (hcfg : seagmConfigured db = true) (hbal : ¬(g.tokenBalance < cost)) :
    rechargeWorker db gid uid cost true pid gn
      = ({ setGroupBalance db gid (g.tokenBalance - cost) with
            tokenLogs := db.tokenLogs ++
              [{ groupId := g.id
                 userId := (findUser db uid).map (·.id)
                 transactionType := "withdraw"
                 amount := -cost
                 balanceBefore := g.tokenBalance
                 balanceAfter := g.tokenBalance - cost
                 referenceId := none
                 description := "儲值 " ++ gn ++ " (" ++ pid ++ ")"
                 operator := ((findUser db uid).map (·.displayName)).getD "System" }] },
         .debited (g.tokenBalance - cost)) :=
  rechargeWorker_debit_eq uid pid gn hg hcfg hbal

/-- C7 amended witness. -/
theorem C7_amended_witness :
    (findGroup dbC7 "G7" = some ⟨1, "G7", "grp", 10, true⟩
      ∧ seagmConfigured dbC7 = true ∧ ¬((10 : ℚ) < 5))
    ∧ rechargeWorker dbC7 "G7" "U7" 5 true "13664" "IdentityV"
        = ({ setGroupBalance dbC7 "G7" (10 - 5) with
              tokenLogs := dbC7.tokenLogs ++
                [{ groupId := 1
                   userId := (findUser dbC7 "U7").map (·.id)
                   transactionType := "withdraw"
                   amount := -5
                   balanceBefore := 10
                   balanceAfter := 10 - 5
                   referenceId := none
                   description := "儲值 " ++ "IdentityV" ++ " (" ++ "13664" ++ ")"
                   operator := ((findUser dbC7 "U7").map (·.displayName)).getD "System" }] },
           .debited (10 - 5)) :=
  ⟨⟨by decide, by decide, by norm_num⟩,
   C7_amended_inline_debit_without_key dbC7 "G7" "U7" "13664" "IdentityV" 5
     ⟨1, "G7", "grp", 10, true⟩ (by decide) (by decide) (by norm_num)⟩

/-- C5 counterexample: with the idempotency key already on a token log
but the transfer id not yet in the email log, the retry is NOT treated as
benign success.  The direct mutator call returns the same plain `False`
as any other failure (no distinct Duplicate outcome); the email pipeline
never even reaches the mutator — the run aborts at the `EmailLog`
construction (`TypeError`: no `raw_body` column), reports failure,
persists no record of any status, and leaves the email unconsumed for
endless retry — instead of recording the attempt as duplicate/success. -/
theorem C5_counterexample_duplicate_key_treated_as_failure :
    performUpdateBalance dbC5 "G5" 500 "deposit" (some (depositReferenceId "TX1"))
        = .returnedFalse .duplicateReference
    ∧ updateGroupBalance dbC5 "G5" 500 "deposit" (some (depositReferenceId "TX1"))
        = (false, dbC5)
    ∧ processParsedTransfer pf0 dbC5 pC5 = (dbC5, false, false)
    ∧ (processParsedTransfer pf0 dbC5 pC5).1.emailLogs = []
    ∧ processOneEmail pf0 dbC5 "subj" "bank@x" (some 500) (some "TX1") "fb"
        (some "G5") (some "payer") = (dbC5, .failedLeftUnseen) := by
  exact ⟨by decide, updateGroupBalance_snd dbC5 "G5" 500 "deposit" _, by decide,
    by decide, by decide⟩

/-- C5 amended: a call whose idempotency key already appears on a token
log returns plain `False` without mutating anything — indistinguishable
from every other failure, with no distinct Duplicate outcome at the API.
The email pipeline treats only a transfer id already present in the email
log as a benign duplicate success; every other retry — including one
whose key is already on a token log — fails before reaching the mutator
(`TypeError` at the `EmailLog` construction, email_service.py lines
245-250: `models.py` has no `raw_body` column), returns failure with
nothing persisted, and the email is left unconsumed for retry. -/
theorem C5_amended_duplicate_key_is_plain_failure (pf : String → ℚ) (db : DB)
    (gid : String) (g : Group) (amount : ℚ) (tt : String) (r : String)
    (p : ParsedTransfer) (hg : findGroup db gid = some g)
    (hr : referenceIdCollides db (some r) = true) :
    performUpdateBalance db gid amount tt (some r) = .returnedFalse .duplicateReference
    ∧ updateGroupBalance db gid amount tt (some r) = (false, db)
    ∧ ((db.emailLogs.find? (fun l => l.transferId == p.transferId)).isSome = true →
        processParsedTransfer pf db p = (db, true, true))
    ∧ ((db.emailLogs.find? (fun l => l.transferId == p.transferId)).isSome = false →
        findGroup db p.targetLineGroupId = some g →
        processParsedTransfer pf db p = (db, false, false)) := by
  refine ⟨?_, updateGroupBalance_snd db gid amount tt (some r), ?_, ?_⟩
  · unfold performUpdateBalance
    rw [hg]
    dsimp only
    rw [if_pos hr]
  · intro hdup
    unfold processParsedTransfer
    rw [if_pos hdup]
  · intro hnodup hg'
    unfold processParsedTransfer
    rw [if_neg (by rw [hnodup]; exact Bool.false_ne_true), hg']

/-- C5 amended witness. -/
theorem C5_amended_witness :
    (findGroup dbC5 "G5" = some ⟨1, "G5", "grp", 500, true⟩
      ∧ referenceIdCollides dbC5 (some "deposit_transfer_TX1") = true)
    ∧ (performUpdateBalance dbC5 "G5" 500 "deposit" (some "deposit_transfer_TX1")
          = .returnedFalse .duplicateReference
      ∧ updateGroupBalance dbC5 "G5" 500 "deposit" (some "deposit_transfer_TX1")
          = (false, dbC5)
      ∧ ((dbC5.emailLogs.find? (fun l => l.transferId == pC5.transferId)).isSome = true →
          processParsedTransfer pf0 dbC5 pC5 = (dbC5, true, true))
      ∧ ((dbC5.emailLogs.find? (fun l => l.transferId == pC5.transferId)).isSome = false →
          findGroup dbC5 pC5.targetLineGroupId = some ⟨1, "G5", "grp", 500, true⟩ →
          processParsedTransfer pf0 dbC5 pC5 = (dbC5, false, false))) :=
  ⟨⟨by decide, by decide⟩,
   C5_amended_duplicate_key_is_plain_failure pf0 dbC5 "G5"
     ⟨1, "G5", "grp", 500, true⟩ 500 "deposit" "deposit_transfer_TX1" pC5
     (by decide) (by decide)⟩

/-- C8 counterexample: an email with an amount but no recognizable group
token is skipped entirely — marked consumed with NO reconciliation record
written (and `email_logs.group_id` is non-nullable, so a `group = null`
record is not even representable), instead of the `unmatched` record the
claim requires. -/
theorem C8_counterexample_unmatched_email_leaves_no_record :
    parseTransferEmail dbC8 "subj" "snd" (some 500) (some "TX8") "fb" none none = none
    ∧ processOneEmail pf0 dbC8 "subj" "snd" (some 500) (some "TX8") "fb" none none
        = (dbC8, .notParsedMarkedSeen)
    ∧ dbC8.emailLogs = [] := by
  exact ⟨by decide, by decide, rfl⟩

/-- C8 amended: when the group token is missing, or resolves to no active
group, the pipeline returns no parse result, creates no record of any
kind, credits nothing, and the email is marked consumed; when an
identifier does resolve, the resolved target is the line-group id of an
active group (the first match in table order — an ambiguous identifier is
resolved by picking the first match, never recorded as unmatched). -/
theorem C8_amended_unresolved_emails_skipped (pf : String → ℚ) (db : DB)
    (subject sender fb ident : String) (amtOpt : Option ℚ)
    (btx payerOpt gidOpt : Option String) :
    parseTransferEmail db subject sender amtOpt btx fb none payerOpt = none
    ∧ (findGroupByIdentifier db ident = none →
        parseTransferEmail db subject sender amtOpt btx fb (some ident) payerOpt = none)
    ∧ (parseTransferEmail db subject sender amtOpt btx fb gidOpt payerOpt = none →
        processOneEmail pf db subject sender amtOpt btx fb gidOpt payerOpt
          = (db, .notParsedMarkedSeen))
    ∧ (∀ t, findGroupByIdentifier db ident = some t →
        ∃ g ∈ db.groups, g.isActive = true ∧ g.lineGroupId = t) := by
  refine ⟨?_, ?_, ?_, ?_⟩
  · cases amtOpt with
    | none => rfl
    | some a =>
      unfold parseTransferEmail
      dsimp only
      by_cases ha : a = 0
      · rw [if_pos ha]
      · rw [if_neg ha]
  · intro hfind
    cases amtOpt with
    | none => rfl
    | some a =>
      unfold parseTransferEmail
      dsimp only
      by_cases ha : a = 0
      · rw [if_pos ha]
      · rw [if_neg ha]
        rw [hfind]
  · intro hparse
    unfold processOneEmail
    rw [hparse]
  · intro t hfind
    unfold findGroupByIdentifier at hfind
    split at hfind
    · obtain ⟨g, hg, hgt⟩ := Option.map_eq_some'.mp hfind
      have hmem := List.mem_filter.mp (List.mem_of_find?_eq_some hg)
      exact ⟨g, hmem.1, hmem.2, hgt⟩
    · split at hfind
      · obtain ⟨g, hg, hgt⟩ := Option.map_eq_some'.mp hfind
        have hmem := List.mem_filter.mp (List.mem_of_find?_eq_some hg)
        exact ⟨g, hmem.1, hmem.2, hgt⟩
      · obtain ⟨g, hg, hgt⟩ := Option.map_eq_some'.mp hfind
        have hmem := List.mem_filter.mp (List.mem_of_find?_eq_some hg)
        exact ⟨g, hmem.1, hmem.2, hgt⟩

/-- C8 amended witness: a Line-id-shaped token resolves to the active
group carrying it. -/
theorem C8_amended_witness :
    findGroupByIdentifier dbC8 "C1234567" = some "C1234567"
    ∧ ∃ g ∈ dbC8.groups, g.isActive = true ∧ g.lineGroupId = "C1234567" :=
  ⟨by decide,
   (C8_amended_unresolved_emails_skipped pf0 dbC8 "s" "b" "fb" "C1234567"
     (some 500) none none none).2.2.2 "C1234567" (by decide)⟩

/-- C9 counterexample: one debit request of amount 5 against balance 5
— the claim predicts exactly `⌊5/5⌋ = 1` successful debit — but a debit
routed through the Balance Mutator never succeeds at all (the ledger
write raises `NameError`), the store is unchanged and no rejection is an
insufficient-balance rejection either. -/
theorem C9_counterexample_mutator_debit_never_succeeds :
    updateGroupBalance dbC9 "G9" (-5) "withdraw" (some "r9") = (false, dbC9)
    ∧ performUpdateBalance dbC9 "G9" (-5) "withdraw" (some "r9")
        = .nameErrorUnboundEnum 5 0 "withdraw"
    ∧ dbC9.tokenLogs.length = 0
    ∧ ⌊(5 : ℚ) / 5⌋ = 1 := by
  have hconv : convertTransactionType "withdraw" = "withdraw" := by decide
  refine ⟨updateGroupBalance_snd dbC9 "G9" (-5) "withdraw" _, ?_, rfl, by norm_num⟩
  norm_num [performUpdateBalance, findGroup, dbC9, referenceIdCollides, hconv]

/-- C9 amended: debits that ARE serialized per group — the worker's
row-locked (`with_for_update`) debit step — obey the counting law: `N`
attempts of amount `A > 0` against balance `B ≥ 0` yield exactly
`min N ⌊B/A⌋` committed debits and `N - min N ⌊B/A⌋` insufficient-balance
rejections; the Balance Mutator itself takes no lock and (as the
counterexample shows) never commits a debit at all. -/
theorem C9_amended_serialized_debits_min_floor (db : DB)
    (gid uid pid gn : String) (A : ℚ) (g : Group) (N : Nat)
    (hg : findGroup db gid = some g) (hcfg : seagmConfigured db = true)
    (hA : 0 < A) (hb : 0 ≤ g.tokenBalance) :
    ((workerDebitN gid uid A pid gn db N).2.1 : ℤ)
        = min (N : ℤ) ⌊g.tokenBalance / A⌋
    ∧ ((workerDebitN gid uid A pid gn db N).2.2 : ℤ)
        = N - min (N : ℤ) ⌊g.tokenBalance / A⌋ := by
  obtain ⟨h1, h2⟩ := workerDebitN_count hA N db g hg hcfg hb
  have hcast : ((workerDebitN gid uid A pid gn db N).2.1 : ℤ)
      + ((workerDebitN gid uid A pid gn db N).2.2 : ℤ) = (N : ℤ) := by
    exact_mod_cast h2
  exact ⟨h1, by omega⟩

/-- C9 amended witness: balance 5, two serialized debit attempts of 5. -/
theorem C9_amended_witness :
    (findGroup dbC9 "G9" = some ⟨1, "G9", "grp", 5, true⟩
      ∧ seagmConfigured dbC9 = true ∧ (0 : ℚ) < 5 ∧ (0 : ℚ) ≤ 5)
    ∧ (((workerDebitN "G9" "U9" 5 "p" "g" dbC9 2).2.1 : ℤ)
          = min ((2 : Nat) : ℤ) ⌊(5 : ℚ) / 5⌋
      ∧ ((workerDebitN "G9" "U9" 5 "p" "g" dbC9 2).2.2 : ℤ)
          = (2 : Nat) - min ((2 : Nat) : ℤ) ⌊(5 : ℚ) / 5⌋) :=
  ⟨⟨by decide, by decide, by decide, by decide⟩,
   C9_amended_serialized_debits_min_floor dbC9 "G9" "U9" "p" "g" 5
     ⟨1, "G9", "grp", 5, true⟩ 2 (by decide) (by decide) (by decide) (by decide)⟩

/-- C10: email_service.py lines 254-256 transcribe exactly the claim's
computation — `tokens_to_add = transfer_amount * token_exchange_rate`,
rate 1.0 when the config row is absent or its value empty — but those
lines are dead code: every fresh transfer aborts earlier, at the
`EmailLog` construction of lines 245-250 (`TypeError`: `raw_body` is not
a column of `EmailLog`), before the rate is ever read.  No email is ever
successfully credited, no token amount is ever computed, the store is
unchanged and the email left unconsumed. -/
theorem C10_rate_transcribed_but_credit_never_lands :
    tokenExchangeRate pf2 dbC10a = 1
    ∧ tokenExchangeRate pf2 dbC10b = 2
    ∧ tokenExchangeRate pf2 dbC10c = 1
    ∧ tokensToAdd pf2 dbC10b 500 = 1000
    ∧ processParsedTransfer pf2 dbC10a pC10 = (dbC10a, false, false)
    ∧ processParsedTransfer pf2 dbC10b pC10 = (dbC10b, false, false) := by
  have h2ne : ("2" : String) ≠ "" := by decide
  refine ⟨by decide, by decide, by decide, ?_, by decide, by decide⟩
  norm_num [tokensToAdd, tokenExchangeRate, findConfig, dbC10b, pf2, h2ne]

end LineBot
